import Mathlib

/-!
Verification of the query-resolution and content-extraction pipeline of the
`dc-bot` repository (a Discord bot driving a 104 job-board search through an
LLM).  Python functions from `src/llm/tools.py`, `src/workflow/job_search.py`,
`src/workflow/job_analysis.py` and `src/bot/commands.py` are shallowly embedded
over `List Char` (Python `str`) and plain structures; machine-external effects
(HTTP, the LLM, the browser) are abstracted as function parameters.
-/

set_option maxRecDepth 10000

/-- Characters of a Lean string literal, used to write Python string constants. -/
def chars (s : String) : List Char := s.data

/-- Python `str.isspace` characters in the ASCII range (`str.strip` default set). -/
def pySpace (c : Char) : Bool :=
  c = ' ' ∨ c = '\t' ∨ c = '\n' ∨ c = '\x0d' ∨ c = '\x0b' ∨ c = '\x0c'

/-- Python `str.strip()` (ASCII whitespace; unicode spaces are not modelled). -/
def pyStrip (s : List Char) : List Char :=
  ((s.dropWhile pySpace).reverse.dropWhile pySpace).reverse

/-- Decimal value accumulator for Python `int()`: digits with optional single
underscore separators between digits, as Python accepts (`int("4_0") = 40`). -/
def pyDigitsGo (acc : Nat) : List Char → Option Nat
  | [] => some acc
  | '_' :: c :: cs =>
    if c.isDigit then pyDigitsGo (acc * 10 + (c.toNat - 48)) cs else none
  | '_' :: [] => none
  | c :: cs =>
    if c.isDigit then pyDigitsGo (acc * 10 + (c.toNat - 48)) cs else none

/-- Nonempty ASCII digit string (with `_` separators) to its value. -/
def pyDigits : List Char → Option Nat
  | [] => none
  | c :: cs => if c.isDigit then pyDigitsGo (c.toNat - 48) cs else none

/-- Python `int(s)` on an already-stripped string: optional sign followed by
ASCII digits.  Unicode digits are not modelled.  `none` models `ValueError`. -/
def pyInt : List Char → Option Int
  | '-' :: rest =>
    match pyDigits rest with
    | some n => some (-(n : Int))
    | none => none
  | '+' :: rest =>
    match pyDigits rest with
    | some n => some ((n : Int))
    | none => none
  | s =>
    match pyDigits s with
    | some n => some ((n : Int))
    | none => none

/-- Python `s.split("-")` specialised to the single-character separator used by
`parse_salary_range`. -/
def splitOnDash : List Char → List (List Char)
  | [] => [[]]
  | c :: cs =>
    if c = '-' then [] :: splitOnDash cs
    else
      match splitOnDash cs with
      | [] => [[c]]
      | p :: ps => (c :: p) :: ps

/-- One segment of the salary-range string: `if part.strip(): try int(...)`. -/
def parseSalarySegment (part : List Char) : Option Int :=
  let t := pyStrip part
  if t = [] then none else pyInt t

/-- `parse_salary_range` from `src/llm/tools.py` (lines 150-191): returns the
`(salary_min, salary_max)` pair.  Empty input or input without `-`, or a split
into a number of parts other than two, yields `(none, none)`; each present
segment is stripped and parsed with `int`, `ValueError` leaving that bound
`none`. -/
def parse_salary_range (salary_range : List Char) : Option Int × Option Int :=
  if salary_range = [] ∨ '-' ∉ salary_range then (none, none)
  else
    match splitOnDash salary_range with
    | [min_str, max_str] => (parseSalarySegment min_str, parseSalarySegment max_str)
    | _ => (none, none)

/-- The documented decimal value of a digit string (specification side). -/
def digitsValue (ds : List Char) : Nat :=
  ds.foldl (fun a c => a * 10 + (c.toNat - 48)) 0

-- Supporting lemmas for the split.

theorem splitOnDash_ne_nil (l : List Char) : splitOnDash l ≠ [] := by
  cases l with
  | nil => simp [splitOnDash]
  | cons c cs =>
    simp only [splitOnDash]
    split
    · simp
    · match h : splitOnDash cs with
      | [] => simp
      | p :: ps => simp

theorem splitOnDash_no_dash (l : List Char) (h : '-' ∉ l) : splitOnDash l = [l] := by
  induction l with
  | nil => simp [splitOnDash]
  | cons c cs ih =>
    have hc : c ≠ '-' := fun hc => h (by simp [hc])
    have hcs : '-' ∉ cs := fun hm => h (by simp [hm])
    simp only [splitOnDash, if_neg hc, ih hcs]

theorem splitOnDash_append (s1 s2 : List Char) (h : '-' ∉ s1) :
    splitOnDash (s1 ++ '-' :: s2) = s1 :: splitOnDash s2 := by
  induction s1 with
  | nil => simp [splitOnDash]
  | cons c cs ih =>
    have hc : c ≠ '-' := fun hc => h (by simp [hc])
    have hcs : '-' ∉ cs := fun hm => h (by simp [hm])
    simp only [List.cons_append, splitOnDash, if_neg hc, List.append_eq]
    rw [ih hcs]

theorem pyDigitsGo_cons_of_ne (acc : Nat) (c : Char) (cs : List Char)
    (h : c ≠ '_') :
    pyDigitsGo acc (c :: cs) =
      if c.isDigit then pyDigitsGo (acc * 10 + (c.toNat - 48)) cs else none := by
  rw [pyDigitsGo.eq_def]
  split <;> simp_all

theorem pyDigitsGo_all_digits (ds : List Char) (acc : Nat)
    (h : ∀ c ∈ ds, c.isDigit) :
    pyDigitsGo acc ds = some (ds.foldl (fun a c => a * 10 + (c.toNat - 48)) acc) := by
  induction ds generalizing acc with
  | nil => simp [pyDigitsGo]
  | cons c cs ih =>
    have hd : c.isDigit := h c (by simp)
    have hne : c ≠ '_' := by
      intro hc; rw [hc] at hd; revert hd; decide
    have hcs : ∀ x ∈ cs, x.isDigit := fun x hx => h x (by simp [hx])
    rw [pyDigitsGo_cons_of_ne acc c cs hne, if_pos hd, ih _ hcs]
    simp [List.foldl]

theorem pyDigits_all_digits (ds : List Char) (hne : ds ≠ [])
    (h : ∀ c ∈ ds, c.isDigit) : pyDigits ds = some (digitsValue ds) := by
  cases ds with
  | nil => exact absurd rfl hne
  | cons c cs =>
    have hd : c.isDigit := h c (by simp)
    have hcs : ∀ x ∈ cs, x.isDigit := fun x hx => h x (by simp [hx])
    simp only [pyDigits, if_pos hd, digitsValue, List.foldl]
    rw [pyDigitsGo_all_digits cs _ hcs]
    norm_num

theorem dropWhile_eq_self_of (p : Char → Bool) (l : List Char)
    (h : ∀ c ∈ l, ¬ p c) : l.dropWhile p = l := by
  cases l with
  | nil => rfl
  | cons c cs => simp [List.dropWhile, h c (by simp)]

/-- Claim C1: for every salary-range string of the forms `min-max`, `min-`,
`-max`, or empty, `parse_salary_range` returns the documented `(min, max)` pair
with `none` for each absent bound; a non-numeric segment yields `none` for that
bound without raising.  In particular `"40000-60000" ↦ (40000, 60000)`,
`"40000-" ↦ (40000, none)`, `"-60000" ↦ (none, 60000)`,
`"abc-60000" ↦ (none, 60000)`; a plain digit segment parses to its decimal
value. -/
theorem parse_salary_range_spec :
    (∀ s1 s2 : List Char, '-' ∉ s1 → '-' ∉ s2 →
      parse_salary_range (s1 ++ '-' :: s2) =
        (parseSalarySegment s1, parseSalarySegment s2)) ∧
    (∀ ds : List Char, ds ≠ [] → (∀ c ∈ ds, c.isDigit) →
      parseSalarySegment ds = some ((digitsValue ds : Int))) ∧
    parse_salary_range [] = (none, none) ∧
    parse_salary_range (chars "40000-60000") = (some 40000, some 60000) ∧
    parse_salary_range (chars "40000-") = (some 40000, none) ∧
    parse_salary_range (chars "-60000") = (none, some 60000) ∧
    parse_salary_range (chars "abc-60000") = (none, some 60000) := by
  refine ⟨?_, ?_, by decide, by decide, by decide, by decide, by decide⟩
  · intro s1 s2 h1 h2
    have hmem : '-' ∈ s1 ++ '-' :: s2 := by simp
    have hnil : s1 ++ '-' :: s2 ≠ [] := by simp
    simp only [parse_salary_range, splitOnDash_append s1 s2 h1,
      splitOnDash_no_dash s2 h2]
    rw [if_neg (by push_neg; exact ⟨hnil, hmem⟩)]
  · intro ds hne hd
    have hnd : ∀ c ∈ ds, ¬ pySpace c := by
      intro c hc
      have := hd c hc
      revert this
      simp only [Char.isDigit, pySpace, decide_eq_true_eq]
      intro hdig hsp
      rcases hsp with h | h | h | h | h | h <;> subst h <;> revert hdig <;> decide
    have hstrip : pyStrip ds = ds := by
      unfold pyStrip
      rw [dropWhile_eq_self_of _ _ hnd,
        dropWhile_eq_self_of _ _ (fun c hc => hnd c (by simpa using hc)),
        List.reverse_reverse]
    have hpy : pyInt ds = some ((digitsValue ds : Nat) : Int) := by
      have hall := pyDigits_all_digits ds hne hd
      cases ds with
      | nil => exact absurd rfl hne
      | cons c cs =>
        have hdc : c.isDigit := hd c (by simp)
        have hc1 : c ≠ '-' := by
          intro hc; rw [hc] at hdc; revert hdc; decide
        have hc2 : c ≠ '+' := by
          intro hc; rw [hc] at hdc; revert hdc; decide
        simp only [pyInt]
        split
        · rename_i heq; exact absurd (by injection heq) hc1
        · rename_i heq; exact absurd (by injection heq) hc2
        · rw [hall]
    simp only [parseSalarySegment, hstrip]
    rw [if_neg hne, hpy]

/-- Witness for C1: the general branch applied at the concrete range
`"123-456"`. -/
theorem parse_salary_range_spec_witness :
    parse_salary_range (chars "123" ++ '-' :: chars "456") =
      (parseSalarySegment (chars "123"), parseSalarySegment (chars "456")) :=
  parse_salary_range_spec.1 (chars "123") (chars "456") (by decide) (by decide)

/-- Claim C10: a salary-range string with no `-` at all (such as the bare
number `"50000"`), or one splitting into a number of parts other than two
(such as `"40000-50000-60000"`), yields `(none, none)` without raising: a bare
salary number is silently ignored, never treated as a minimum bound. -/
theorem parse_salary_range_no_dash_spec :
    (∀ s : List Char, '-' ∉ s → parse_salary_range s = (none, none)) ∧
    (∀ s : List Char, (splitOnDash s).length ≠ 2 →
      parse_salary_range s = (none, none)) ∧
    parse_salary_range (chars "50000") = (none, none) ∧
    parse_salary_range (chars "40000-50000-60000") = (none, none) := by
  refine ⟨?_, ?_, by decide, by decide⟩
  · intro s h
    simp only [parse_salary_range]
    rw [if_pos (Or.inr h)]
  · intro s hlen
    by_cases hm : '-' ∈ s
    · have hnil : s ≠ [] := by rintro rfl; simp at hm
      simp only [parse_salary_range]
      rw [if_neg (by push_neg; exact ⟨hnil, hm⟩)]
      match h : splitOnDash s with
      | [] => simp
      | [a] => simp
      | [a, b] => rw [h] at hlen; simp at hlen
      | a :: b :: c :: rest => simp
    · simp only [parse_salary_range]
      rw [if_pos (Or.inr hm)]

/-- Witness for C10: both general branches applied at concrete inputs. -/
theorem parse_salary_range_no_dash_spec_witness :
    parse_salary_range (chars "abc") = (none, none) ∧
    parse_salary_range (chars "1-2-3") = (none, none) :=
  ⟨parse_salary_range_no_dash_spec.1 (chars "abc") (by decide),
   parse_salary_range_no_dash_spec.2.1 (chars "1-2-3") (by decide)⟩

/-! ## URL validation and fetch-strategy selection (`src/workflow/job_analysis.py`) -/

/-- `List.isPrefixOf` as the model of Python `str.startswith`. -/
def startsWithL (p s : List Char) : Bool := p.isPrefixOf s

/-- Python `needle in haystack` substring containment on strings. -/
def isSubstrOf (pat : List Char) : List Char → Bool
  | [] => startsWithL pat []
  | s@(_ :: rest) => startsWithL pat s || isSubstrOf pat rest

/-- The components of `urllib.parse.urlparse` consumed by
`validate_url_security`: the (lowercased) scheme and the optional lowercased
hostname. -/
structure ParsedUrl where
  scheme : List Char
  hostname : Option (List Char)
deriving DecidableEq

/-- A valid URL scheme per `urllib.parse`: a letter followed by letters,
digits, `+`, `-` or `.`. -/
def validScheme (s : List Char) : Bool :=
  match s with
  | [] => false
  | c :: rest => c.isAlpha && rest.all (fun d => d.isAlphanum ∨ d = '+' ∨ d = '-' ∨ d = '.')

/-- Hostname of a `//netloc...` remainder: the netloc runs to the next
`/`, `?` or `#`; userinfo before the last `@` is removed, a `:port` suffix is
removed, and the result is lowercased (empty gives `none`, as Python's
`hostname` is `None` then).  Bracketed IPv6 netlocs are not modelled. -/
def hostOf (r : List Char) : Option (List Char) :=
  if startsWithL (chars "//") r then
    let netloc := (r.drop 2).takeWhile (fun c => c ≠ '/' ∧ c ≠ '?' ∧ c ≠ '#')
    let afterAt := ((netloc.reverse.takeWhile (· ≠ '@')).reverse)
    let host := (afterAt.takeWhile (· ≠ ':')).map Char.toLower
    if host = [] then none else some host
  else none

/-- Model of `urllib.parse.urlparse` restricted to the two fields the code
reads.  The scheme is the (lowercased) part before the first `:` when it is a
valid scheme, else empty; the netloc/hostname is parsed from a leading `//` of
the remainder. -/
def urlparse (url : List Char) : ParsedUrl :=
  let pre := url.takeWhile (· ≠ ':')
  if ':' ∈ url ∧ validScheme pre then
    { scheme := pre.map Char.toLower, hostname := hostOf (url.drop (pre.length + 1)) }
  else
    { scheme := [], hostname := hostOf url }

/-- The blocked host list of `validate_url_security`. -/
def blocked_hosts : List (List Char) :=
  [chars "localhost", chars "127.0.0.1", chars "0.0.0.0"]

/-- `validate_url_security` from `src/workflow/job_analysis.py` (lines 30-68)
applied to the parsed URL: only `http`/`https` schemes, a present non-empty
hostname, not a blocked host, and no private-range prefix `10.`, `172.`,
`192.168.`. -/
def validate_url_security (p : ParsedUrl) : Bool :=
  if ¬ (p.scheme = chars "http" ∨ p.scheme = chars "https") then false
  else
    match p.hostname with
    | none => false
    | some h =>
      if h = [] then false
      else if h.map Char.toLower ∈ blocked_hosts then false
      else if startsWithL (chars "10.") h ∨ startsWithL (chars "172.") h ∨
          startsWithL (chars "192.168.") h then false
      else true

/-- Claim C2: `validate_url_security` accepts exactly when the scheme is
`http` or `https`, the hostname is present and non-empty, it is none of
`localhost`/`127.0.0.1`/`0.0.0.0` (up to case), and it does not begin with
`10.`, `172.` or `192.168.`; with the spec's five concrete URLs. -/
theorem validate_url_security_spec :
    (∀ p : ParsedUrl, validate_url_security p = true ↔
      ((p.scheme = chars "http" ∨ p.scheme = chars "https") ∧
        ∃ h, p.hostname = some h ∧ h ≠ [] ∧
          h.map Char.toLower ∉ blocked_hosts ∧
          ¬ (startsWithL (chars "10.") h ∨ startsWithL (chars "172.") h ∨
            startsWithL (chars "192.168.") h))) ∧
    validate_url_security (urlparse (chars "http://localhost/x")) = false ∧
    validate_url_security (urlparse (chars "https://127.0.0.1/x")) = false ∧
    validate_url_security (urlparse (chars "http://192.168.1.5/x")) = false ∧
    validate_url_security (urlparse (chars "ftp://host/x")) = false ∧
    validate_url_security (urlparse (chars "https://www.104.com.tw/job/abc123")) = true := by
  refine ⟨?_, by decide, by decide, by decide, by decide, by decide⟩
  intro p
  unfold validate_url_security
  constructor
  · intro hv
    split at hv
    · exact absurd hv (by simp)
    · rename_i hsch
      rw [not_not] at hsch
      refine ⟨hsch, ?_⟩
      match hh : p.hostname with
      | none => rw [hh] at hv; exact absurd hv (by simp)
      | some h =>
        rw [hh] at hv
        refine ⟨h, rfl, ?_, ?_, ?_⟩ <;> by_contra hc <;> simp [hc] at hv
  · rintro ⟨hsch, h, hh, hne, hbl, hpre⟩
    rw [if_neg (not_not.mpr hsch), hh]
    simp [hne, hbl, hpre]

/-- The JavaScript-rendered domain allow-list of `is_dynamic_website`. -/
def dynamic_domains : List (List Char) := [chars "104.com.tw"]

/-- `is_dynamic_website` from `src/workflow/job_analysis.py` (lines 176-191):
`any(domain in url for domain in dynamic_domains)` — a substring test against
the whole URL string, not the URL's host. -/
def is_dynamic_website (url : List Char) : Bool :=
  dynamic_domains.any (fun domain => isSubstrOf domain url)

/-- The fetch strategies of `fetch_webpage_content`. -/
inductive FetchStrategy where
  | dynamic
  | static
deriving DecidableEq

/-- Strategy selection of `fetch_webpage_content` from
`src/workflow/job_analysis.py` (lines 506-539): reject on failed security
validation, else dynamic when `is_dynamic_website`, else static. -/
def fetch_webpage_content_strategy (url : List Char) : Option FetchStrategy :=
  if ¬ validate_url_security (urlparse url) then none
  else if is_dynamic_website url then some .dynamic
  else some .static

/-- Counterexample to claim C5: `http://example.com/104.com.tw` passes
security validation, its host is `example.com` — which neither equals nor
contains the only allow-list entry `104.com.tw` — and yet the engine chooses
the dynamic strategy, because the code substring-matches the whole URL. -/
theorem fetch_strategy_not_host_based :
    fetch_webpage_content_strategy (chars "http://example.com/104.com.tw") =
      some FetchStrategy.dynamic ∧
    (urlparse (chars "http://example.com/104.com.tw")).hostname =
      some (chars "example.com") ∧
    chars "example.com" ≠ chars "104.com.tw" ∧
    isSubstrOf (chars "104.com.tw") (chars "example.com") = false := by
  refine ⟨by decide, by decide, by decide, by decide⟩

/-- Claim C5 as amended: for every URL that passes security validation, the
dynamic strategy is chosen if and only if the URL *string* contains an
allow-listed domain (currently only `104.com.tw`) as a substring — anywhere in
the URL, not only in the host; every other validated URL is fetched with the
static strategy, and a URL failing validation gets no strategy at all. -/
theorem fetch_strategy_spec :
    (∀ url : List Char, validate_url_security (urlparse url) = true →
      (fetch_webpage_content_strategy url = some FetchStrategy.dynamic ↔
        isSubstrOf (chars "104.com.tw") url = true) ∧
      (fetch_webpage_content_strategy url = some FetchStrategy.static ↔
        isSubstrOf (chars "104.com.tw") url = false)) ∧
    (∀ url : List Char, validate_url_security (urlparse url) = false →
      fetch_webpage_content_strategy url = none) := by
  constructor
  · intro url hv
    unfold fetch_webpage_content_strategy is_dynamic_website dynamic_domains
    rw [if_neg (by simp [hv])]
    simp only [List.any_cons, List.any_nil, Bool.or_false]
    constructor <;> constructor <;> intro h <;> revert h <;> split <;> simp_all
  · intro url hv
    unfold fetch_webpage_content_strategy
    rw [if_pos (by simp [hv])]

/-- Witness for C5 (amended): the 104 job URL is validated and fetched
dynamically; a plain external site is validated and fetched statically. -/
theorem fetch_strategy_spec_witness :
    fetch_webpage_content_strategy (chars "https://www.104.com.tw/job/abc123") =
      some FetchStrategy.dynamic ∧
    fetch_webpage_content_strategy (chars "https://example.org/jobs/1") =
      some FetchStrategy.static :=
  ⟨((fetch_strategy_spec.1 (chars "https://www.104.com.tw/job/abc123")
      (by decide)).1).mpr (by decide),
   ((fetch_strategy_spec.1 (chars "https://example.org/jobs/1")
      (by decide)).2).mpr (by decide)⟩

/-! ## Parameter resolution (`src/llm/tools.py`, lines 77-243)

The code-mapping tables (`AREA_MAP` and friends, from the repository's
`core/mappings.py`) are plain dictionary data; the resolver logic is
parameterised over them, since the claims quantify over map contents. -/

/-- A facet code-mapping table: human label to provider code. -/
def FacetMap : Type := List (List Char × List Char)

/-- Dictionary lookup in a facet map (the maps are dict literals without
duplicate keys). -/
def facetLookup (m : FacetMap) (label : List Char) : Option (List Char) :=
  match m with
  | [] => none
  | (k, v) :: rest => if k = label then some v else facetLookup rest label

/-- `convert_areas_to_codes`: looks up each area label, appending the code on a
hit and skipping the label with a warning on a miss. -/
def convert_areas_to_codes (amap : FacetMap) : List (List Char) → List (List Char)
  | [] => []
  | area :: rest =>
    match facetLookup amap area with
    | some code => code :: convert_areas_to_codes amap rest
    | none => convert_areas_to_codes amap rest

/-- `convert_job_categories_to_codes`: same shape as area conversion. -/
def convert_job_categories_to_codes (jmap : FacetMap) : List (List Char) → List (List Char)
  | [] => []
  | category :: rest =>
    match facetLookup jmap category with
    | some code => code :: convert_job_categories_to_codes jmap rest
    | none => convert_job_categories_to_codes jmap rest

/-- `convert_education_to_code`: lookup returning `None` on a miss. -/
def convert_education_to_code (emap : FacetMap) (education : List Char) :
    Option (List Char) :=
  facetLookup emap education

/-- `convert_sort_by_to_code`: lookup returning `None` on a miss. -/
def convert_sort_by_to_code (smap : FacetMap) (sort_by : List Char) :
    Option (List Char) :=
  facetLookup smap sort_by

/-- The loosely-typed tool-parameter dictionary in its documented shape; a
`none` field models an absent key. -/
structure ToolParams where
  keyword : Option (List Char) := none
  area : Option (List (List Char)) := none
  job_category : Option (List (List Char)) := none
  education : Option (List Char) := none
  sort_by : Option (List Char) := none
  salary_range : Option (List Char) := none
  posted_within_days : Option Int := none

/-- The resolved search-parameter dictionary handed to `search_104_jobs`; a
`none` field models a key absent from the dictionary. -/
structure SearchParams where
  keyword : Option (List Char) := none
  posted_within_days : Option Int := none
  area : Option (List (List Char)) := none
  job_category : Option (List (List Char)) := none
  education : Option (List Char) := none
  sort_by : Option (List Char) := none
  salary_min : Option Int := none
  salary_max : Option Int := none

/-- `convert_tool_params_to_search_params` from `src/llm/tools.py` (lines
194-243).  `keyword` and `posted_within_days` pass through; label facets are
code-converted, a facet whose codes all fail to resolve being omitted (`if
area_codes:` / truthiness of the education and sort codes); the salary bounds
come from `parse_salary_range`, each included only when not `None`. -/
def convert_tool_params_to_search_params
    (amap jmap emap smap : FacetMap) (tool_params : ToolParams) : SearchParams :=
  { keyword := tool_params.keyword
    posted_within_days := tool_params.posted_within_days
    area :=
      match tool_params.area with
      | some areas =>
        let area_codes := convert_areas_to_codes amap areas
        if area_codes = [] then none else some area_codes
      | none => none
    job_category :=
      match tool_params.job_category with
      | some categories =>
        let category_codes := convert_job_categories_to_codes jmap categories
        if category_codes = [] then none else some category_codes
      | none => none
    education :=
      match tool_params.education with
      | some education =>
        match convert_education_to_code emap education with
        | some code => if code = [] then none else some code
        | none => none
      | none => none
    sort_by :=
      match tool_params.sort_by with
      | some sort_by =>
        match convert_sort_by_to_code smap sort_by with
        | some code => if code = [] then none else some code
        | none => none
      | none => none
    salary_min :=
      match tool_params.salary_range with
      | some sr => (parse_salary_range sr).1
      | none => none
    salary_max :=
      match tool_params.salary_range with
      | some sr => (parse_salary_range sr).2
      | none => none }

theorem convert_areas_to_codes_eq_filterMap (amap : FacetMap) (areas : List (List Char)) :
    convert_areas_to_codes amap areas = areas.filterMap (facetLookup amap) := by
  induction areas with
  | nil => rfl
  | cons a rest ih =>
    simp only [convert_areas_to_codes, List.filterMap_cons]
    match facetLookup amap a with
    | some code => simpa using ih
    | none => simpa using ih

theorem convert_job_categories_to_codes_eq_filterMap (jmap : FacetMap)
    (cats : List (List Char)) :
    convert_job_categories_to_codes jmap cats = cats.filterMap (facetLookup jmap) := by
  induction cats with
  | nil => rfl
  | cons a rest ih =>
    simp only [convert_job_categories_to_codes, List.filterMap_cons]
    match facetLookup jmap a with
    | some code => simpa using ih
    | none => simpa using ih

/-- Claim C3: parameter resolution is total and per-facet.  (a) Unmapped area
and category labels are dropped, the mapped ones keeping their codes in order;
(b) a facet whose values all fail to resolve is omitted from the output
entirely; (c) resolution of each facet is unaffected by every other facet (no
partial-failure cross-contamination); (d) with nothing resolvable the result is
the empty parameter dictionary, never an arbitrary default. -/
theorem convert_tool_params_total_spec :
    (∀ (amap : FacetMap) (areas : List (List Char)),
      convert_areas_to_codes amap areas = areas.filterMap (facetLookup amap) ∧
      convert_job_categories_to_codes amap areas = areas.filterMap (facetLookup amap)) ∧
    (∀ (amap jmap emap smap : FacetMap) (tp : ToolParams) (areas : List (List Char)),
      tp.area = some areas → areas.filterMap (facetLookup amap) = [] →
      (convert_tool_params_to_search_params amap jmap emap smap tp).area = none) ∧
    (∀ (amap jmap emap smap : FacetMap) (tp : ToolParams) (education : List Char),
      tp.education = some education → facetLookup emap education = none →
      (convert_tool_params_to_search_params amap jmap emap smap tp).education = none) ∧
    (∀ (amap jmap emap smap : FacetMap) (tp tp' : ToolParams),
      tp.education = tp'.education →
      (convert_tool_params_to_search_params amap jmap emap smap tp).education =
        (convert_tool_params_to_search_params amap jmap emap smap tp').education) ∧
    (∀ (amap jmap emap smap : FacetMap) (tp tp' : ToolParams),
      tp.area = tp'.area →
      (convert_tool_params_to_search_params amap jmap emap smap tp).area =
        (convert_tool_params_to_search_params amap jmap emap smap tp').area) ∧
    (∀ (amap jmap emap smap : FacetMap) (tp tp' : ToolParams),
      tp.keyword = tp'.keyword →
      (convert_tool_params_to_search_params amap jmap emap smap tp).keyword =
        (convert_tool_params_to_search_params amap jmap emap smap tp').keyword) ∧
    (∀ (amap jmap emap smap : FacetMap) (tp tp' : ToolParams),
      tp.salary_range = tp'.salary_range →
      (convert_tool_params_to_search_params amap jmap emap smap tp).salary_min =
        (convert_tool_params_to_search_params amap jmap emap smap tp').salary_min ∧
      (convert_tool_params_to_search_params amap jmap emap smap tp).salary_max =
        (convert_tool_params_to_search_params amap jmap emap smap tp').salary_max) ∧
    (∀ (amap jmap emap smap : FacetMap),
      convert_tool_params_to_search_params amap jmap emap smap {} = {}) := by
  refine ⟨?_, ?_, ?_, ?_, ?_, ?_, ?_, ?_⟩
  · intro amap areas
    exact ⟨convert_areas_to_codes_eq_filterMap amap areas,
      convert_job_categories_to_codes_eq_filterMap amap areas⟩
  · intro amap jmap emap smap tp areas hta hfm
    simp only [convert_tool_params_to_search_params, hta,
      convert_areas_to_codes_eq_filterMap, hfm, if_pos]
  · intro amap jmap emap smap tp education hte hfm
    simp only [convert_tool_params_to_search_params, hte,
      convert_education_to_code, hfm]
  · intro amap jmap emap smap tp tp' h
    simp only [convert_tool_params_to_search_params, h]
  · intro amap jmap emap smap tp tp' h
    simp only [convert_tool_params_to_search_params, h]
  · intro amap jmap emap smap tp tp' h
    simp only [convert_tool_params_to_search_params, h]
  · intro amap jmap emap smap tp tp' h
    constructor <;> simp only [convert_tool_params_to_search_params, h]
  · intro amap jmap emap smap
    rfl

/-- Witness for C3: with a one-entry area map, the unmapped label `新竹市` is
dropped while `台北市` resolves; a fully-unresolvable facet dictionary maps to
the empty parameter dictionary. -/
theorem convert_tool_params_total_spec_witness :
    convert_areas_to_codes [(chars "台北市", chars "6001001000")]
        [chars "台北市", chars "新竹市"] =
      [chars "6001001000"] ∧
    (convert_tool_params_to_search_params [] [] [] []
      { area := some [chars "台北市"] }).area = none := by
  constructor
  · rw [(convert_tool_params_total_spec.1
      [(chars "台北市", chars "6001001000")] [chars "台北市", chars "新竹市"]).1]
    decide
  · exact convert_tool_params_total_spec.2.1 [] [] [] []
      { area := some [chars "台北市"] } [chars "台北市"] rfl (by decide)

/-! ## JSON extraction from LLM text (`src/workflow/job_search.py`, lines 18-54)

`json.loads` is modelled by a recursive-descent parser over `List Char`
following the JSON grammar as Python's `json` module accepts it (including the
non-standard `NaN`/`Infinity` constants); numbers are kept as their source
token, `\uXXXX` escapes decode the code unit directly (surrogate-pair
combination is not modelled), and float underflow is not modelled. -/

/-- A parsed JSON value.  Number tokens are kept verbatim. -/
inductive Json where
  | null : Json
  | bool (b : Bool) : Json
  | num (tok : List Char) : Json
  | str (s : List Char) : Json
  | arr (elems : List Json) : Json
  | obj (members : List (List Char × Json)) : Json

/-- JSON whitespace (` `, tab, newline, carriage return). -/
def jsonWs (c : Char) : Bool :=
  c = ' ' ∨ c = '\t' ∨ c = '\n' ∨ c = '\x0d'

/-- Skip JSON whitespace. -/
def skipJsonWs (cs : List Char) : List Char := cs.dropWhile jsonWs

/-- Hex digit value. -/
def hexVal (c : Char) : Option Nat :=
  if c.isDigit then some (c.toNat - 48)
  else if 'a' ≤ c ∧ c ≤ 'f' then some (c.toNat - 87)
  else if 'A' ≤ c ∧ c ≤ 'F' then some (c.toNat - 55)
  else none

/-- Body of a JSON string after the opening quote: returns the decoded string
and the remainder after the closing quote.  Raw control characters are
rejected, as Python's strict-mode `json.loads` does. -/
def parseStringBody : List Char → Option (List Char × List Char)
  | [] => none
  | '"' :: rest => some ([], rest)
  | '\\' :: 'u' :: h1 :: h2 :: h3 :: h4 :: rest =>
    (match hexVal h1, hexVal h2, hexVal h3, hexVal h4 with
     | some a, some b, some c, some d =>
       (parseStringBody rest).map
         (fun p => (Char.ofNat (((a * 16 + b) * 16 + c) * 16 + d) :: p.1, p.2))
     | _, _, _, _ => none)
  | '\\' :: e :: rest =>
    (match e with
     | '"' => (parseStringBody rest).map (fun p => ('"' :: p.1, p.2))
     | '\\' => (parseStringBody rest).map (fun p => ('\\' :: p.1, p.2))
     | '/' => (parseStringBody rest).map (fun p => ('/' :: p.1, p.2))
     | 'b' => (parseStringBody rest).map (fun p => ('\x08' :: p.1, p.2))
     | 'f' => (parseStringBody rest).map (fun p => ('\x0c' :: p.1, p.2))
     | 'n' => (parseStringBody rest).map (fun p => ('\n' :: p.1, p.2))
     | 'r' => (parseStringBody rest).map (fun p => ('\x0d' :: p.1, p.2))
     | 't' => (parseStringBody rest).map (fun p => ('\t' :: p.1, p.2))
     | _ => none)
  | c :: rest =>
    if c.toNat < 32 then none
    else (parseStringBody rest).map (fun p => (c :: p.1, p.2))

/-- Longest digit run and the remainder. -/
def spanDigits (cs : List Char) : List Char × List Char :=
  (cs.takeWhile Char.isDigit, cs.dropWhile Char.isDigit)

/-- Optional JSON fraction part. -/
def parseFracPart : List Char → Option (List Char × List Char)
  | '.' :: r =>
    let p := spanDigits r
    if p.1 = [] then none else some ('.' :: p.1, p.2)
  | cs => some ([], cs)

/-- Optional JSON exponent part. -/
def parseExpPart : List Char → Option (List Char × List Char)
  | c :: r =>
    if c = 'e' ∨ c = 'E' then
      let sp : List Char × List Char :=
        match r with
        | '+' :: rr => (['+'], rr)
        | '-' :: rr => (['-'], rr)
        | _ => ([], r)
      let p := spanDigits sp.2
      if p.1 = [] then none else some (c :: sp.1 ++ p.1, p.2)
    else some ([], c :: r)
  | [] => some ([], [])

/-- JSON number token: optional `-`, integer part without leading zeros,
optional fraction and exponent.  Returns the token text and the remainder. -/
def parseNumberToken (cs : List Char) : Option (List Char × List Char) :=
  let sp : List Char × List Char :=
    match cs with
    | '-' :: r => (['-'], r)
    | _ => ([], cs)
  match sp.2 with
  | [] => none
  | c :: _ =>
    if ¬ c.isDigit then none
    else
      let ip := spanDigits sp.2
      if 1 < ip.1.length ∧ ip.1.headD '0' = '0' then none
      else
        match parseFracPart ip.2 with
        | none => none
        | some fp =>
          match parseExpPart fp.2 with
          | none => none
          | some ep => some (sp.1 ++ ip.1 ++ fp.1 ++ ep.1, ep.2)

mutual

/-- One JSON value (leading whitespace allowed), with remaining input. -/
def parseValue : Nat → List Char → Option (Json × List Char)
  | 0, _ => none
  | Nat.succ fuel, cs =>
    match skipJsonWs cs with
    | 'n' :: 'u' :: 'l' :: 'l' :: rest => some (.null, rest)
    | 't' :: 'r' :: 'u' :: 'e' :: rest => some (.bool true, rest)
    | 'f' :: 'a' :: 'l' :: 's' :: 'e' :: rest => some (.bool false, rest)
    | 'N' :: 'a' :: 'N' :: rest => some (.num (chars "NaN"), rest)
    | 'I' :: 'n' :: 'f' :: 'i' :: 'n' :: 'i' :: 't' :: 'y' :: rest =>
      some (.num (chars "Infinity"), rest)
    | '-' :: 'I' :: 'n' :: 'f' :: 'i' :: 'n' :: 'i' :: 't' :: 'y' :: rest =>
      some (.num (chars "-Infinity"), rest)
    | '"' :: rest => (parseStringBody rest).map (fun p => (.str p.1, p.2))
    | '[' :: rest =>
      (parseElements fuel rest).map (fun p => (.arr p.1, p.2))
    | '{' :: rest =>
      (parseMembers fuel rest).map (fun p => (.obj p.1, p.2))
    | other => (parseNumberToken other).map (fun p => (.num p.1, p.2))

/-- Array elements after `[`. -/
def parseElements : Nat → List Char → Option (List Json × List Char)
  | 0, _ => none
  | Nat.succ fuel, cs =>
    match skipJsonWs cs with
    | ']' :: rest => some ([], rest)
    | cs' => parseMoreElements fuel cs'

/-- One or more array elements. -/
def parseMoreElements : Nat → List Char → Option (List Json × List Char)
  | 0, _ => none
  | Nat.succ fuel, cs =>
    match parseValue fuel cs with
    | none => none
    | some (v, r1) =>
      match skipJsonWs r1 with
      | ',' :: r2 =>
        (parseMoreElements fuel r2).map (fun p => (v :: p.1, p.2))
      | ']' :: r2 => some ([v], r2)
      | _ => none

/-- Object members after an opening brace. -/
def parseMembers : Nat → List Char → Option (List (List Char × Json) × List Char)
  | 0, _ => none
  | Nat.succ fuel, cs =>
    match skipJsonWs cs with
    | '}' :: rest => some ([], rest)
    | cs' => parseMoreMembers fuel cs'

/-- One or more `"key": value` object members. -/
def parseMoreMembers : Nat → List Char → Option (List (List Char × Json) × List Char)
  | 0, _ => none
  | Nat.succ fuel, cs =>
    match skipJsonWs cs with
    | '"' :: rest =>
      match parseStringBody rest with
      | none => none
      | some (key, r1) =>
        match skipJsonWs r1 with
        | ':' :: r2 =>
          match parseValue fuel r2 with
          | none => none
          | some (v, r3) =>
            match skipJsonWs r3 with
            | ',' :: r4 =>
              (parseMoreMembers fuel r4).map (fun p => ((key, v) :: p.1, p.2))
            | '}' :: r4 => some ([(key, v)], r4)
            | _ => none
        | _ => none
    | _ => none

end

/-- `json.loads`: a single JSON value with only whitespace around it. -/
def json_loads (cs : List Char) : Option Json :=
  match parseValue (3 * cs.length + 8) cs with
  | some (v, rest) => if skipJsonWs rest = [] then some v else none
  | none => none

/-- Python `dict.get` on a parsed object: a later duplicate key wins, as in
`dict` construction. -/
def objGet (kvs : List (List Char × Json)) (k : List Char) : Option Json :=
  match kvs with
  | [] => none
  | (k', v) :: rest =>
    match objGet rest k with
    | some v' => some v'
    | none => if k' = k then some v else none

/-- Python truthiness of a JSON-decoded value (`if not need_search`).  A number
is falsy when its mantissa digits are all zero; float underflow of tiny
exponents is not modelled. -/
def jsonTruthy : Json → Bool
  | .null => false
  | .bool b => b
  | .str s => ¬ s.isEmpty
  | .arr xs => ¬ xs.isEmpty
  | .obj kvs => ¬ kvs.isEmpty
  | .num tok =>
    if tok = chars "NaN" ∨ tok = chars "Infinity" ∨ tok = chars "-Infinity" then true
    else (tok.takeWhile (fun c => c ≠ 'e' ∧ c ≠ 'E')).any
      (fun c => c.isDigit ∧ c ≠ '0')

/-- Non-greedy close of the fenced capture `(\x7b[\s\S]*?\x7d)\s*`+backticks:
content up to and including the first `\x7d` that is followed by optional
whitespace and a closing triple backtick. -/
def findClose : List Char → Option (List Char)
  | [] => none
  | c :: rest =>
    if c = '}' ∧ startsWithL (chars "```") (rest.dropWhile pySpace) then some [c]
    else
      match findClose rest with
      | some body => some (c :: body)
      | none => none

/-- Attempt the fenced-block regex right after an opening triple backtick:
optional literal `json`, whitespace, then a brace-delimited capture closed by
whitespace and a closing triple backtick. -/
def fenceMatchAt (cs : List Char) : Option (List Char) :=
  let cs1 := if startsWithL (chars "json") cs then cs.drop 4 else cs
  match cs1.dropWhile pySpace with
  | '{' :: rest => (findClose rest).map (fun body => '{' :: body)
  | _ => none

/-- First match of the fenced-code-block pattern, scanning left to right as
`re.findall` does; only the first match is ever used by the code. -/
def findFirstFence : List Char → Option (List Char)
  | [] => none
  | c :: rest =>
    if startsWithL (chars "```") (c :: rest) then
      match fenceMatchAt (rest.drop 2) with
      | some cap => some cap
      | none => findFirstFence rest
    else findFirstFence rest

/-- The single match of the greedy brace pattern `\x7b[\s\S]*\x7d` under
`re.findall`: from the first opening brace through the last closing brace
(there is at most one such non-overlapping match). -/
def braceCandidate (cs : List Char) : Option (List Char) :=
  match cs.dropWhile (· ≠ '{') with
  | [] => none
  | fromBrace =>
    match (fromBrace.reverse.dropWhile (· ≠ '}')).reverse with
    | [] => none
    | upto => some upto

/-- `extract_json_from_text` from `src/workflow/job_search.py` (lines 18-54):
direct parse of the stripped text, then the first fenced capture, then the
greedy brace-delimited match; `none` when every attempted candidate fails. -/
def extract_json_from_text (text : List Char) : Option Json :=
  match json_loads (pyStrip text) with
  | some j => some j
  | none =>
    match findFirstFence text with
    | some cap =>
      match json_loads cap with
      | some j => some j
      | none =>
        match braceCandidate text with
        | some cand => json_loads cand
        | none => none
    | none =>
      match braceCandidate text with
      | some cand => json_loads cand
      | none => none

/-! ## Result formatting (`src/llm/tools.py`, lines 270-308) -/

/-- One job record of the provider's `data.list` payload, with the fields the
formatter reads (`None` models an absent key) plus the raw salary bounds the
payload carries (`salaryLow`/`salaryHigh`), which the formatter does not read. -/
structure Job where
  jobName : Option (List Char) := none
  custName : Option (List Char) := none
  jobAddrNoDesc : Option (List Char) := none
  salaryDesc : Option (List Char) := none
  optionEdu : Option (List Char) := none
  periodDesc : Option (List Char) := none
  appearDateDesc : Option (List Char) := none
  jobNo : Option (List Char) := none
  description : Option (List Char) := none
  salaryLow : Option Int := none
  salaryHigh : Option Int := none

/-- The provider's `data` object. -/
structure SearchData where
  list : List Job := []
  totalCount : Option Int := none

/-- The provider's response payload as `format_job_search_results` reads it. -/
structure SearchResult where
  status : Option Int := none
  errorMsg : Option (List Char) := none
  data : Option SearchData := none

/-- Decimal digits of a natural number. -/
def natDigits (n : Nat) : List Char := Nat.toDigits 10 n

/-- Group reversed digits in threes, as Python's `format(n, ',')` does. -/
def commaGroupRev : List Char → List Char
  | [] => []
  | [a] => [a]
  | [a, b] => [a, b]
  | [a, b, c] => [a, b, c]
  | a :: b :: c :: d :: rest => a :: b :: c :: ',' :: commaGroupRev (d :: rest)

/-- Python `f"{i:,}"`: thousands separators. -/
def pyCommaFormat (i : Int) : List Char :=
  if i < 0 then '-' :: (commaGroupRev (natDigits i.natAbs).reverse).reverse
  else (commaGroupRev (natDigits i.toNat).reverse).reverse

/-- The lines the formatter appends for the job at (0-based) index `idx`. -/
def jobLines (idx : Nat) (job : Job) : List (List Char) :=
  [natDigits idx ++ chars ". " ++ job.jobName.getD (chars "N/A"),
   chars "   公司：" ++ job.custName.getD (chars "N/A"),
   chars "   地區：" ++ job.jobAddrNoDesc.getD (chars "N/A"),
   chars "   薪資：" ++ job.salaryDesc.getD (chars "N/A"),
   chars "   學歷：" ++ job.optionEdu.getD (chars "N/A"),
   chars "   經歷：" ++ job.periodDesc.getD (chars "N/A"),
   chars "   更新：" ++ job.appearDateDesc.getD (chars "N/A"),
   chars "   連結：https://www.104.com.tw/job/" ++ job.jobNo.getD [],
   chars "   介紹：" ++ (job.description.getD (chars "N/A")).take 100 ++ chars "...",
   []]

/-- `format_job_search_results` from `src/llm/tools.py` (lines 270-308). -/
def format_job_search_results (result : SearchResult) (max_jobs : Nat) : List Char :=
  if result.status ≠ some 200 then
    chars "搜尋失敗：" ++ result.errorMsg.getD (chars "未知錯誤")
  else
    let data := result.data.getD {}
    let jobs := data.list
    let total := data.totalCount.getD 0
    if total = 0 then chars "沒有找到符合條件的工作。"
    else
      let jobs_to_show := jobs.take max_jobs
      let header := chars "找到 " ++ pyCommaFormat total ++
        chars " 筆工作，以下是前 " ++ natDigits jobs_to_show.length ++ chars " 筆：\n"
      List.intercalate (chars "\n")
        (header :: (jobs_to_show.enum.map (fun p => jobLines p.1 p.2)).flatten)

/-! ## The prompt-JSON orchestrator (`src/workflow/job_search.py`, lines 57-188)

The two LLM calls and the network search are external collaborators:
`execute_search` stands for `execute_job_search_tool` (its `Except.error`
carries the exception text `str(e)`), and `llm_final` stands for the second
LLM turn, applied to the exact prompt string the code builds.  The result
mirrors the returned record, with `final_response` kept as the JSON value
Python would store. -/

/-- Python exception kinds the orchestrator itself can raise. -/
inductive PyErr where
  | attributeError

/-- The record returned by `chat_with_job_search`. -/
structure ChatResult where
  user_message : List Char
  search_params : Json
  search_results : List SearchResult
  final_response : Json
  need_search : Bool

/-- `chat_with_job_search` from `src/workflow/job_search.py` (lines 57-188),
as a function of the first LLM turn's text `response_text`. -/
def chat_with_job_search (user_message response_text : List Char)
    (execute_search : Json → Except (List Char) SearchResult)
    (llm_final : List Char → List Char) : Except PyErr ChatResult :=
  match extract_json_from_text response_text with
  | none =>
    .ok { user_message, search_params := .obj [], search_results := [],
          final_response := .str response_text, need_search := false }
  | some parsed =>
    match parsed with
    | .obj kvs =>
      let need_search := jsonTruthy ((objGet kvs (chars "need_search")).getD (.bool false))
      if need_search = false then
        .ok { user_message, search_params := .obj [], search_results := [],
              final_response := (objGet kvs (chars "message")).getD (.str response_text),
              need_search := false }
      else
        let search_params := (objGet kvs (chars "params")).getD (.obj [])
        match execute_search search_params with
        | .error e =>
          .ok { user_message, search_params, search_results := [],
                final_response := .str (chars "搜尋時發生錯誤：" ++ e),
                need_search := true }
        | .ok search_result =>
          let formatted := format_job_search_results search_result 100
          .ok { user_message, search_params, search_results := [search_result],
                final_response := .str (llm_final (chars "用戶需求：" ++ user_message ++
                  chars "\n\n搜尋結果：\n" ++ formatted)),
                need_search := true }
    | _ => .error .attributeError

/-- Counterexample to claim C4: on the text `\x7bbad\x7d \x7b"a": 1\x7d` the
extractor returns `None` — the single greedy brace match spans from the first
`\x7b` to the last `\x7d` and fails to parse — even though the text contains the
brace-delimited substring `\x7b"a": 1\x7d`, which parses.  So `None` is not
returned only when no brace-delimited substring parses. -/
theorem extract_json_none_with_parsing_substring :
    (extract_json_from_text (chars "\x7bbad\x7d \x7b\"a\": 1\x7d")).isNone = true ∧
    (json_loads (chars "\x7b\"a\": 1\x7d")).isSome = true ∧
    chars "\x7bbad\x7d \x7b\"a\": 1\x7d" =
      chars "\x7bbad\x7d " ++ chars "\x7b\"a\": 1\x7d" := by
  refine ⟨by decide, by decide, by decide⟩

/-- Claim C4 as amended: `extract_json_from_text` attempts, in order, a direct
JSON parse of the trimmed text, the first fenced-code-block capture, and the
single greedy brace-delimited match running from the first opening brace to the
last closing brace; it succeeds for a bare JSON object, a fenced JSON object,
and a JSON object embedded in prose, and returns `None` exactly when all the
attempted candidates fail to parse (a different brace-delimited substring may
still parse, see the counterexample); when it returns `None`,
`chat_with_job_search` returns the raw LLM text verbatim as the final
response, not an error. -/
theorem extract_json_from_text_spec :
    (∀ t j, json_loads (pyStrip t) = some j → extract_json_from_text t = some j) ∧
    (∀ t cap j, json_loads (pyStrip t) = none → findFirstFence t = some cap →
      json_loads cap = some j → extract_json_from_text t = some j) ∧
    (∀ t, extract_json_from_text t = none →
      json_loads (pyStrip t) = none ∧
      (∀ cap, findFirstFence t = some cap → json_loads cap = none) ∧
      (∀ cand, braceCandidate t = some cand → json_loads cand = none)) ∧
    (extract_json_from_text (chars "\x7b\"need_search\": false\x7d")).isSome = true ∧
    (extract_json_from_text
      (chars "```json\n\x7b\"need_search\": false\x7d\n```")).isSome = true ∧
    (extract_json_from_text
      (chars "好的 \x7b\"need_search\": false\x7d 請稍等")).isSome = true ∧
    (∀ um resp es lf, extract_json_from_text resp = none →
      chat_with_job_search um resp es lf =
        Except.ok
          { user_message := um, search_params := Json.obj [],
            search_results := [], final_response := Json.str resp,
            need_search := false }) := by
  refine ⟨?_, ?_, ?_, by decide, by decide, by decide, ?_⟩
  · intro t j h
    unfold extract_json_from_text
    rw [h]
  · intro t cap j h1 h2 h3
    unfold extract_json_from_text
    rw [h1, h2]
    simp only [h3]
  · intro t h
    unfold extract_json_from_text at h
    cases hl : json_loads (pyStrip t) with
    | some j => rw [hl] at h; simp at h
    | none =>
      rw [hl] at h
      refine ⟨rfl, ?_, ?_⟩
      · intro cap hcap
        simp only [hcap] at h
        cases hjc : json_loads cap with
        | some j => simp [hjc] at h
        | none => rfl
      · intro cand hcand
        cases hf : findFirstFence t with
        | some cap =>
          simp only [hf] at h
          cases hjc : json_loads cap with
          | some j => simp [hjc] at h
          | none =>
            simp only [hjc, hcand] at h
            exact h
        | none =>
          simp only [hf, hcand] at h
          exact h
  · intro um resp es lf h
    unfold chat_with_job_search
    rw [h]

/-- Witness for C4 (amended): the direct-parse branch applied to a concrete
bare object, and the raw-text fallback applied to a concrete unparseable
response. -/
theorem extract_json_from_text_spec_witness :
    extract_json_from_text (chars "\x7b\"need_search\": false\x7d") =
      some (Json.obj [(chars "need_search", Json.bool false)]) ∧
    chat_with_job_search (chars "hi") (chars "plain text")
        (fun _ => Except.error []) (fun s => s) =
      Except.ok
        { user_message := chars "hi", search_params := Json.obj [],
          search_results := [], final_response := Json.str (chars "plain text"),
          need_search := false } :=
  ⟨extract_json_from_text_spec.1 (chars "\x7b\"need_search\": false\x7d")
      (Json.obj [(chars "need_search", Json.bool false)]) rfl,
   (extract_json_from_text_spec.2.2.2.2.2.2) (chars "hi") (chars "plain text")
      (fun _ => Except.error []) (fun s => s) rfl⟩

/-- Claim C8: when search execution fails, `chat_with_job_search` catches the
failure and returns a result whose final response is the user-visible error
string `搜尋時發生錯誤：...`; the exception is not propagated, and no second
LLM turn happens (the result is the same for every second-turn LLM).  This is
the only path producing that explicit error string: on every other path the
final response is the raw LLM text, the parsed `message` value, or the second
LLM turn's answer. -/
theorem chat_with_job_search_error_spec :
    (∀ um resp es lf kvs e,
      extract_json_from_text resp = some (Json.obj kvs) →
      jsonTruthy ((objGet kvs (chars "need_search")).getD (Json.bool false)) = true →
      es ((objGet kvs (chars "params")).getD (Json.obj [])) = Except.error e →
      chat_with_job_search um resp es lf =
        Except.ok
          { user_message := um,
            search_params := (objGet kvs (chars "params")).getD (Json.obj []),
            search_results := [],
            final_response := Json.str (chars "搜尋時發生錯誤：" ++ e),
            need_search := true }) ∧
    (∀ um resp es lf lf' kvs e,
      extract_json_from_text resp = some (Json.obj kvs) →
      jsonTruthy ((objGet kvs (chars "need_search")).getD (Json.bool false)) = true →
      es ((objGet kvs (chars "params")).getD (Json.obj [])) = Except.error e →
      chat_with_job_search um resp es lf = chat_with_job_search um resp es lf') ∧
    (∀ um resp es lf r,
      chat_with_job_search um resp es lf = Except.ok r →
      r.final_response = Json.str resp ∨
      (∃ kvs, extract_json_from_text resp = some (Json.obj kvs) ∧
        r.final_response = (objGet kvs (chars "message")).getD (Json.str resp)) ∨
      (∃ kvs e, extract_json_from_text resp = some (Json.obj kvs) ∧
        es ((objGet kvs (chars "params")).getD (Json.obj [])) = Except.error e ∧
        r.final_response = Json.str (chars "搜尋時發生錯誤：" ++ e)) ∨
      (∃ kvs sr, extract_json_from_text resp = some (Json.obj kvs) ∧
        es ((objGet kvs (chars "params")).getD (Json.obj [])) = Except.ok sr ∧
        r.final_response = Json.str (lf (chars "用戶需求：" ++ um ++
          chars "\n\n搜尋結果：\n" ++ format_job_search_results sr 100)))) := by
  refine ⟨?_, ?_, ?_⟩
  · intro um resp es lf kvs e hx ht hes
    unfold chat_with_job_search
    rw [hx]
    simp only [ht]
    rw [if_neg (by decide), hes]
  · intro um resp es lf lf' kvs e hx ht hes
    unfold chat_with_job_search
    rw [hx]
    simp only [ht]
    rw [if_neg (by decide), hes]
    rw [if_neg (by decide)]
  · intro um resp es lf r h
    unfold chat_with_job_search at h
    cases hx : extract_json_from_text resp with
    | none =>
      rw [hx] at h
      replace h := Except.ok.inj h
      left
      rw [← h]
    | some parsed =>
      rw [hx] at h
      cases parsed with
      | obj kvs =>
        cases ht : jsonTruthy ((objGet kvs (chars "need_search")).getD (Json.bool false)) with
        | false =>
          simp only [ht] at h
          rw [if_pos trivial] at h
          replace h := Except.ok.inj h
          right; left
          exact ⟨kvs, rfl, by rw [← h]⟩
        | true =>
          simp only [ht] at h
          rw [if_neg (by decide)] at h
          cases hes : es ((objGet kvs (chars "params")).getD (Json.obj [])) with
          | error e =>
            rw [hes] at h
            replace h := Except.ok.inj h
            right; right; left
            exact ⟨kvs, e, rfl, hes, by rw [← h]⟩
          | ok sr =>
            rw [hes] at h
            replace h := Except.ok.inj h
            right; right; right
            exact ⟨kvs, sr, rfl, hes, by rw [← h]⟩
      | null => exact Except.noConfusion h
      | bool b => exact Except.noConfusion h
      | num tok => exact Except.noConfusion h
      | str s => exact Except.noConfusion h
      | arr xs => exact Except.noConfusion h

/-- Witness for C8: a concrete failing search.  The first LLM turn asks for a
search, the executor fails with `boom`, and the user sees exactly the error
string; the result is identical whatever the second LLM turn would have
answered. -/
theorem chat_with_job_search_error_spec_witness :
    chat_with_job_search (chars "找工作") (chars "\x7b\"need_search\": true, \"params\": \x7b\x7d\x7d")
        (fun _ => Except.error (chars "boom")) (fun s => s) =
      Except.ok
        { user_message := chars "找工作",
          search_params := Json.obj [],
          search_results := [],
          final_response := Json.str (chars "搜尋時發生錯誤：" ++ chars "boom"),
          need_search := true } ∧
    chat_with_job_search (chars "找工作") (chars "\x7b\"need_search\": true, \"params\": \x7b\x7d\x7d")
        (fun _ => Except.error (chars "boom")) (fun s => s) =
      chat_with_job_search (chars "找工作") (chars "\x7b\"need_search\": true, \"params\": \x7b\x7d\x7d")
        (fun _ => Except.error (chars "boom")) (fun _ => chars "other answer") := by
  constructor
  · have h := chat_with_job_search_error_spec.1 (chars "找工作")
      (chars "\x7b\"need_search\": true, \"params\": \x7b\x7d\x7d")
      (fun _ => Except.error (chars "boom")) (fun s => s)
      [(chars "need_search", Json.bool true), (chars "params", Json.obj [])]
      (chars "boom") rfl rfl rfl
    exact h
  · exact chat_with_job_search_error_spec.2.1 (chars "找工作")
      (chars "\x7b\"need_search\": true, \"params\": \x7b\x7d\x7d")
      (fun _ => Except.error (chars "boom")) (fun s => s) (fun _ => chars "other answer")
      [(chars "need_search", Json.bool true), (chars "params", Json.obj [])]
      (chars "boom") rfl rfl rfl

/-- A concrete job record whose raw salary bounds are 40000/60000 but whose
provider-supplied `salaryDesc` is `面議`. -/
def salaryCexJob : Job :=
  { jobName := some (chars "後端工程師"), salaryDesc := some (chars "面議"),
    salaryLow := some 40000, salaryHigh := some 60000 }

/-- A concrete one-job search payload around `salaryCexJob`. -/
def salaryCexResult : SearchResult :=
  { status := some 200,
    data := some { list := [salaryCexJob], totalCount := some 1 } }

/-- Counterexample to claim C6: the formatter prints the record's `salaryDesc`
field verbatim and never derives the descriptor from the raw low/high pair —
for a record with low 40000 and high 60000 (an "exact range" by the claimed
three-way rule) the formatted block shows `薪資：面議` and not
`40000 - 60000 元`. -/
theorem format_salary_not_derived :
    salaryCexJob.salaryLow = some 40000 ∧
    salaryCexJob.salaryHigh = some 60000 ∧
    isSubstrOf (chars "薪資：面議")
      (format_job_search_results salaryCexResult 100) = true ∧
    isSubstrOf (chars "40000 - 60000 元")
      (format_job_search_results salaryCexResult 100) = false := by
  refine ⟨rfl, rfl, by decide, by decide⟩

/-- A job record with its raw salary bounds cleared; the formatter cannot tell
the difference, because it never reads them. -/
def scrubSalaryBounds (j : Job) : Job :=
  { j with salaryLow := none, salaryHigh := none }

/-- `scrubSalaryBounds` lifted over a whole payload. -/
def scrubResultBounds (r : SearchResult) : SearchResult :=
  { r with data := r.data.map (fun d => { d with list := d.list.map scrubSalaryBounds }) }

theorem jobLines_scrub (idx : Nat) (j : Job) :
    jobLines idx (scrubSalaryBounds j) = jobLines idx j := by
  cases j
  rfl

theorem enumFrom_map_jobLines (n : Nat) (l : List Job) :
    ((l.map scrubSalaryBounds).enumFrom n).map (fun p => jobLines p.1 p.2) =
      (l.enumFrom n).map (fun p => jobLines p.1 p.2) := by
  induction l generalizing n with
  | nil => rfl
  | cons j js ih =>
    simp only [List.map_cons, List.enumFrom, jobLines_scrub]
    rw [ih]

theorem enum_map_jobLines (l : List Job) :
    ((l.map scrubSalaryBounds).enum).map (fun p => jobLines p.1 p.2) =
      (l.enum).map (fun p => jobLines p.1 p.2) :=
  enumFrom_map_jobLines 0 l

/-- Claim C6 as amended: the salary descriptor in each formatted entry is the
record's provider-supplied `salaryDesc` string verbatim (`N/A` when absent);
the formatter does not derive it from the raw low/high pair — its output is
unchanged under any change of `salaryLow`/`salaryHigh` — and the three display
modes quoted by the spec are those of the provider's `salaryDesc` field, not of
this code. -/
theorem format_salary_verbatim_spec :
    (∀ idx j, (jobLines idx j)[3]? =
      some (chars "   薪資：" ++ j.salaryDesc.getD (chars "N/A"))) ∧
    (∀ idx j lo hi,
      jobLines idx { j with salaryLow := lo, salaryHigh := hi } = jobLines idx j) ∧
    (∀ r max_jobs,
      format_job_search_results (scrubResultBounds r) max_jobs =
        format_job_search_results r max_jobs) := by
  refine ⟨?_, ?_, ?_⟩
  · intro idx j
    rfl
  · intro idx j lo hi
    cases j
    rfl
  · intro r max_jobs
    unfold format_job_search_results scrubResultBounds
    cases r with
    | mk status errorMsg data =>
      cases data with
      | none => rfl
      | some d =>
        cases d with
        | mk jobs total =>
          simp only [Option.map_some', Option.getD_some]
          by_cases h200 : status ≠ some 200
          · rw [if_pos h200, if_pos h200]
          · rw [if_neg h200, if_neg h200]
            by_cases h0 : total.getD 0 = 0
            · rw [if_pos h0, if_pos h0]
            · rw [if_neg h0, if_neg h0]
              rw [← List.map_take, List.length_map, enum_map_jobLines]

/-! ## Static fetch budgets (`src/workflow/job_analysis.py`, lines 432-503)

The HTTP response is a content-length header plus a stream of byte chunks
(bytes as `Nat`); HTML parsing plus `extract_general_content` is the
`extract` parameter, since DOM parsing is outside this embedding. -/

/-- The 5MB body cap of `fetch_static_content`. -/
def MAX_FETCH_SIZE : Nat := 5 * 1024 * 1024

/-- The `iter_content` accumulation loop: add each chunk's size, and break
out — dropping the current chunk and reading no further — as soon as the
running size exceeds the cap. -/
def iterContent (max_size : Nat) (size : Nat) : List (List Nat) → List Nat
  | [] => []
  | chunk :: rest =>
    if max_size < size + chunk.length then []
    else chunk ++ iterContent max_size (size + chunk.length) rest

/-- Parse-and-truncate tail of `fetch_static_content`: empty extraction gives
`None`; an extraction longer than 2000 characters is cut to 2000 and suffixed
with `...`. -/
def fetchStaticBody (chunks : List (List Nat)) (extract : List Nat → List Char) :
    Option (List Char) :=
  let content := iterContent MAX_FETCH_SIZE 0 chunks
  let extracted := extract content
  if extracted = [] then none
  else if 2000 < extracted.length then some (extracted.take 2000 ++ chars "...")
  else some extracted

/-- `fetch_static_content` from `src/workflow/job_analysis.py` (lines
432-503): refuse a `content-length` header above 5MB, read the body capped at
5MB, extract, and truncate. -/
def fetch_static_content (content_length : Option Nat) (chunks : List (List Nat))
    (extract : List Nat → List Char) : Option (List Char) :=
  match content_length with
  | some n => if MAX_FETCH_SIZE < n then none else fetchStaticBody chunks extract
  | none => fetchStaticBody chunks extract

theorem iterContent_length_le (M : Nat) : ∀ (chunks : List (List Nat)) (s : Nat),
    s ≤ M → (iterContent M s chunks).length + s ≤ M
  | [], s, h => by simpa [iterContent] using h
  | chunk :: rest, s, h => by
    simp only [iterContent]
    split
    · simpa using h
    · rename_i hle
      push_neg at hle
      have ih := iterContent_length_le M rest (s + chunk.length) hle
      simp only [List.length_append]
      omega

theorem iterContent_isPrefix (M : Nat) : ∀ (chunks : List (List Nat)) (s : Nat),
    iterContent M s chunks <+: chunks.flatten
  | [], s => by simp [iterContent]
  | chunk :: rest, s => by
    simp only [iterContent, List.flatten_cons]
    split
    · exact ⟨chunk ++ rest.flatten, rfl⟩
    · obtain ⟨t, ht⟩ := iterContent_isPrefix M rest (s + chunk.length)
      exact ⟨t, by rw [List.append_assoc, ht]⟩

/-- Counterexample to claim C7: when the extracted content has 2001
characters, the static fetch returns a 2003-character string — 2000 characters
plus the 3-character ellipsis marker — so the returned content is not bounded
by the 2000-character ceiling itself. -/
theorem fetch_static_over_2000 :
    fetch_static_content none [] (fun _ => List.replicate 2001 'a') =
      some (List.replicate 2000 'a' ++ chars "...") ∧
    (List.replicate 2000 'a' ++ chars "...").length = 2003 := by
  constructor
  · show fetchStaticBody [] (fun _ => List.replicate 2001 'a') = _
    unfold fetchStaticBody iterContent
    rw [if_neg (by simp), if_pos (by simp)]
    rw [List.take_replicate]
    norm_num
  · simp [chars]

/-- Claim C7 as amended: the streamed body is capped at 5MB — what is read is
a prefix of the stream of at most `MAX_FETCH_SIZE` bytes, the loop aborting
mid-stream on overflow — and every content string the static fetch returns is
the extracted text truncated at 2000 characters, with a 3-character ellipsis
appended when truncation occurred, so its length is bounded by 2003 (2000
exactly for the untruncated part). -/
theorem fetch_static_content_bounds_spec :
    (∀ (content_length : Option Nat) (chunks : List (List Nat))
        (extract : List Nat → List Char) (r : List Char),
      fetch_static_content content_length chunks extract = some r →
      r.length ≤ 2003 ∧
      (r = extract (iterContent MAX_FETCH_SIZE 0 chunks) ∨
        r = (extract (iterContent MAX_FETCH_SIZE 0 chunks)).take 2000 ++ chars "...")) ∧
    (∀ chunks : List (List Nat),
      (iterContent MAX_FETCH_SIZE 0 chunks).length ≤ MAX_FETCH_SIZE) ∧
    (∀ chunks : List (List Nat),
      iterContent MAX_FETCH_SIZE 0 chunks <+: chunks.flatten) := by
  refine ⟨?_, ?_, ?_⟩
  · intro content_length chunks extract r h
    have hbody : fetchStaticBody chunks extract = some r := by
      cases content_length with
      | none => exact h
      | some n =>
        unfold fetch_static_content at h
        have h' : (if MAX_FETCH_SIZE < n then none
            else fetchStaticBody chunks extract) = some r := h
        by_cases hn : MAX_FETCH_SIZE < n
        · rw [if_pos hn] at h'; cases h'
        · rw [if_neg hn] at h'; exact h'
    unfold fetchStaticBody at hbody
    by_cases hemp : extract (iterContent MAX_FETCH_SIZE 0 chunks) = []
    · rw [if_pos hemp] at hbody; cases hbody
    · rw [if_neg hemp] at hbody
      by_cases hlen : 2000 < (extract (iterContent MAX_FETCH_SIZE 0 chunks)).length
      · rw [if_pos hlen] at hbody
        replace hbody := Option.some.inj hbody
        constructor
        · rw [← hbody]
          simp only [List.length_append, List.length_take]
          have : (chars "...").length = 3 := by decide
          omega
        · right; exact hbody.symm
      · rw [if_neg hlen] at hbody
        replace hbody := Option.some.inj hbody
        push_neg at hlen
        constructor
        · rw [← hbody]; omega
        · left; exact hbody.symm
  · intro chunks
    have := iterContent_length_le MAX_FETCH_SIZE chunks 0 (Nat.zero_le _)
    omega
  · intro chunks
    exact iterContent_isPrefix MAX_FETCH_SIZE chunks 0

/-- Witness for C7 (amended): the bound theorem applied to a concrete fetch
whose extraction is short. -/
theorem fetch_static_content_bounds_spec_witness :
    (chars "hello").length ≤ 2003 ∧
    (chars "hello" = (fun _ => chars "hello") (iterContent MAX_FETCH_SIZE 0 []) ∨
      chars "hello" =
        ((fun _ => chars "hello") (iterContent MAX_FETCH_SIZE 0 [])).take 2000 ++
          chars "...") :=
  fetch_static_content_bounds_spec.1 none [] (fun _ => chars "hello")
    (chars "hello") rfl

/-! ## Report chunking in the delivery layer (`src/bot/commands.py`, lines 96-107) -/

/-- The Python list comprehension
`[report[i:i+2000] for i in range(0, len(report), 2000)]`. -/
def sliceChunks : List Char → List (List Char)
  | [] => []
  | l@(_ :: _) => l.take 2000 :: sliceChunks (l.drop 2000)
termination_by l => l.length
decreasing_by simp_all [List.length_drop]; omega

/-- The sequence of Discord messages `job_analysis` sends for a report: one
unchanged message for a report within the 2000-character ceiling, else the
2000-character slices in order. -/
def job_analysis_messages (report : List Char) : List (List Char) :=
  if 2000 < report.length then sliceChunks report else [report]

theorem sliceChunks_flatten : ∀ (n : Nat) (l : List Char), l.length ≤ n →
    (sliceChunks l).flatten = l
  | _, [], _ => by simp [sliceChunks]
  | 0, c :: cs, h => by simp at h
  | Nat.succ n, c :: cs, h => by
    rw [sliceChunks]
    have hdrop : (List.drop 2000 (c :: cs)).length ≤ n := by
      simp only [List.length_drop, List.length_cons]
      simp only [List.length_cons] at h
      omega
    simp only [List.flatten_cons, sliceChunks_flatten n _ hdrop]
    exact List.take_append_drop 2000 (c :: cs)

theorem sliceChunks_bounded : ∀ (n : Nat) (l : List Char), l.length ≤ n →
    ∀ c ∈ sliceChunks l, c.length ≤ 2000
  | _, [], _ => by simp [sliceChunks]
  | 0, c :: cs, h => by simp at h
  | Nat.succ n, c :: cs, h => by
    rw [sliceChunks]
    intro x hx
    rcases List.mem_cons.mp hx with hx | hx
    · subst hx
      simp only [List.length_take]
      omega
    · have hdrop : (List.drop 2000 (c :: cs)).length ≤ n := by
        simp only [List.length_drop, List.length_cons]
        simp only [List.length_cons] at h
        omega
      exact sliceChunks_bounded n _ hdrop x hx

/-- Claim C9: a report longer than the 2000-character ceiling is split into
sequential chunks of at most 2000 characters whose in-order concatenation is
exactly the original report (chunked, never truncated); a report of at most
2000 characters is sent unchanged as a single message. -/
theorem job_analysis_chunking_spec :
    (∀ report : List Char, (job_analysis_messages report).flatten = report) ∧
    (∀ (report : List Char), ∀ c ∈ job_analysis_messages report, c.length ≤ 2000) ∧
    (∀ report : List Char, report.length ≤ 2000 →
      job_analysis_messages report = [report]) := by
  refine ⟨?_, ?_, ?_⟩
  · intro report
    unfold job_analysis_messages
    split
    · exact sliceChunks_flatten report.length report (le_refl _)
    · simp
  · intro report c hc
    unfold job_analysis_messages at hc
    split at hc
    · exact sliceChunks_bounded report.length report (le_refl _) c hc
    · rename_i hle
      push_neg at hle
      rcases List.mem_singleton.mp hc with rfl
      exact hle
  · intro report h
    unfold job_analysis_messages
    rw [if_neg (by omega)]

/-- Witness for C9: the short-report branch applied to a concrete report. -/
theorem job_analysis_chunking_spec_witness :
    job_analysis_messages (chars "分析完成") = [chars "分析完成"] :=
  job_analysis_chunking_spec.2.2 (chars "分析完成") (by decide)
